import Mathlib

/-!
Verification of the vkitnet company-site application (`src/app.py`).

The Flask handlers are shallowly embedded as pure Lean functions: the
per-browser session and the database tables (users, tasks, task_time_logs,
auth_logs, admin_actions, services, employees) become explicit values that
are passed in and returned.  The persistence gateway (MySQL) and the file
store are external collaborators; they are modelled as always available,
inserts as list appends and `UPDATE ... WHERE id` as a map over the rows.
Timestamps are modelled as integers (`Int`); for the activity aggregation a
timestamp is the day index, since the code only ever compares days there.
Filenames are modelled as `List Char` (Python `str`), and the two library
helpers the upload path leans on (`werkzeug.utils.secure_filename` and
`os.path.splitext`) are embedded from their library behaviour on ASCII
input.
-/

/-! ### Python string helpers -/

/-- Python whitespace characters (those `str.split()` / `str.strip()` act on). -/
def isSpaceChar (c : Char) : Bool :=
  c.toNat == 32 || (9 ≤ c.toNat && c.toNat ≤ 13)

/-- `str.strip()` on a list of characters: drop whitespace from both ends. -/
def pyStripL (l : List Char) : List Char :=
  ((l.dropWhile isSpaceChar).reverse.dropWhile isSpaceChar).reverse

/-- `str.strip()` on a `String`, as the handlers apply to form fields. -/
def pyStripS (s : String) : String :=
  ⟨pyStripL s.data⟩

/-- Python `a or b` for an optional string `a`: `None` and `""` are falsy. -/
def pyOr (o : Option String) (d : String) : String :=
  match o with
  | none => d
  | some s => if s = "" then d else s

/-- Python `a or b` where both operands are optional strings. -/
def pyOrOpt (a b : Option String) : Option String :=
  match a with
  | none => b
  | some s => if s = "" then b else some s

/-! ### Auth & session data model -/

/-- The `action` ENUM of the `auth_logs` table. -/
inductive AuthAction where
  | login_success
  | login_failure
  | logout
deriving DecidableEq, Repr

/-- A row of the `auth_logs` table. -/
structure AuthLogEntry where
  username : Option String
  user_id : Option Nat
  is_admin : Bool
  action : AuthAction
  ip : Option String
  user_agent : Option String
  device_type : String
deriving DecidableEq, Repr

/-- The request context `log_auth_event` reads (client address and user agent). -/
structure ReqCtx where
  ip : Option String
  ua : Option String
deriving DecidableEq, Repr

/-- Python `needle in hay` on strings: substring test. -/
def containsSub (needle : List Char) : List Char → Bool
  | [] => needle.isEmpty
  | c :: t => needle.isPrefixOf (c :: t) || containsSub needle t

/-- `_detect_device_type`: coarse user-agent classifier (`src/app.py:155`). -/
def _detect_device_type (ua : Option String) : String :=
  match ua with
  | none => "unknown"
  | some u =>
    if u = "" then "unknown"
    else
      let s := u.toLower
      if containsSub "mobi".data s.data || containsSub "android".data s.data
          || containsSub "iphone".data s.data || containsSub "ipad".data s.data then "mobile"
      else "desktop"

/-- `log_auth_event` (`src/app.py:165`): append one row to `auth_logs`.
The MySQL insert is modelled as a list append (persistence available). -/
def log_auth_event (ctx : ReqCtx) (action : AuthAction) (username : Option String)
    (user_id : Option Nat) (is_admin : Bool) (log : List AuthLogEntry) : List AuthLogEntry :=
  log ++ [{ username := username
            user_id := user_id
            is_admin := is_admin
            action := action
            ip := ctx.ip
            user_agent := ctx.ua.map (fun u => (⟨u.data.take 255⟩ : String))
            device_type := _detect_device_type ctx.ua }]

/-- The Flask session dict: the keys the application ever sets.  `session.pop`
sets a key to `none`/`false`; `session.clear()` resets every key. -/
structure Session where
  admin_logged_in : Bool
  user_id : Option Nat
  user_role : Option String
  employee_id : Option Nat
deriving DecidableEq, Repr

/-- `session.clear()`. -/
def Session.empty : Session :=
  { admin_logged_in := false, user_id := none, user_role := none, employee_id := none }

/-- A row of the `users` table (the columns `signin` selects). -/
structure UserRow where
  id : Nat
  username : String
  password_hash : String
  role : String
  is_active : Bool
  employee_id : Option Nat
deriving DecidableEq, Repr

/-- How a `POST /signin` attempt ends. -/
inductive SigninOutcome where
  | adminLoggedIn
  | userLoggedIn
  | invalidCredentials
deriving DecidableEq, Repr

/-- Result of a `POST /signin` attempt: new session, auth log, whether the
`users` table was queried, outcome and redirect target. -/
structure SigninResult where
  session : Session
  log : List AuthLogEntry
  db_queried : Bool
  outcome : SigninOutcome
  redirect : String
deriving DecidableEq, Repr

/-- `signin`, POST branch (`src/app.py:399`).  `env_user`/`env_pass` are the
`ADMIN_USERNAME`/`ADMIN_PASSWORD` values read fresh from the environment at
this attempt; `check_password_hash` abstracts the werkzeug hash check. -/
def signin (ctx : ReqCtx) (env_user env_pass : String)
    (check_password_hash : String → String → Bool) (users : List UserRow)
    (next_url : Option String) (form_username form_password : String)
    (s : Session) (log : List AuthLogEntry) : SigninResult :=
  let username := pyStripS form_username
  let password := pyStripS form_password
  if username = env_user ∧ password = env_pass then
    { session := { Session.empty with admin_logged_in := true }
      log := log_auth_event ctx .login_success (some username) none true log
      db_queried := false
      outcome := .adminLoggedIn
      redirect := pyOr next_url "/admin" }
  else
    match users.find? (fun u => u.username == username) with
    | none =>
      { session := s
        log := log_auth_event ctx .login_failure (some username) none false log
        db_queried := true
        outcome := .invalidCredentials
        redirect := "/signin" }
    | some u =>
      if u.is_active = false ∨ check_password_hash u.password_hash password = false then
        { session := s
          log := log_auth_event ctx .login_failure (some username) none false log
          db_queried := true
          outcome := .invalidCredentials
          redirect := "/signin" }
      else
        { session := { Session.empty with
                        user_id := some u.id
                        user_role := some u.role
                        employee_id := u.employee_id }
          log := log_auth_event ctx .login_success (some u.username) (some u.id) false log
          db_queried := true
          outcome := .userLoggedIn
          redirect := pyOr next_url "/my/tasks" }

/-- `user_logout`, route `GET /logout` (`src/app.py:451`).  The handler pops
the three user keys first and only then inspects the session to decide which
logout audit entry to write. -/
def user_logout (ctx : ReqCtx) (s : Session) (log : List AuthLogEntry) :
    Session × List AuthLogEntry :=
  let s1 : Session := { s with user_id := none, user_role := none, employee_id := none }
  let log1 :=
    if s1.admin_logged_in then log_auth_event ctx .logout (some "admin") none true log
    else if s1.user_id.isSome then log_auth_event ctx .logout none s1.user_id false log
    else log
  (s1, log1)

/-- `admin_logout`, route `GET /admin/logout` (`src/app.py:749`). -/
def admin_logout (ctx : ReqCtx) (_s : Session) (log : List AuthLogEntry) :
    Session × List AuthLogEntry :=
  (Session.empty, log_auth_event ctx .logout (some "admin") none true log)

/-! ### Task tracking data model -/

/-- The `action` ENUM of the `task_time_logs` table. -/
inductive TLAction where
  | start
  | complete
deriving DecidableEq, Repr

/-- A row of the `task_time_logs` table.  `employee_id` holds the value the
handler passes (the session's `employee_id`); the column's NOT NULL
constraint belongs to the database engine. -/
structure TimeLogRow where
  employee_id : Option Nat
  task_id : Nat
  action : TLAction
  at_ : Int
deriving DecidableEq, Repr

/-- A row of the `tasks` table (the columns the employee actions touch). -/
structure TaskRow where
  id : Nat
  employee_id : Option Nat
  status : String
  updated_at : Int
deriving DecidableEq, Repr

/-- The two tables the employee task actions read and write. -/
structure TtState where
  tasks : List TaskRow
  time_logs : List TimeLogRow
deriving DecidableEq, Repr

/-- Flash outcome of a task action. -/
inductive TaskActionOutcome where
  | ok
  | noAccess
deriving DecidableEq, Repr

/-- `task_start`, route `POST /my/tasks/<id>/start` (`src/app.py:564`):
fetch the task by id, require `t.employee_id == emp_id` (Python equality on
the fetched row), then insert one `start` time-log row and set the task's
status to `in_progress`. -/
def task_start (emp_id : Option Nat) (now : Int) (task_id : Nat) (st : TtState) :
    TtState × TaskActionOutcome :=
  match st.tasks.find? (fun t => t.id == task_id) with
  | none => (st, .noAccess)
  | some t =>
    if t.employee_id ≠ emp_id then (st, .noAccess)
    else
      ({ tasks := st.tasks.map (fun u =>
            if u.id == task_id then { u with status := "in_progress", updated_at := now } else u)
         time_logs := st.time_logs ++
            [{ employee_id := emp_id, task_id := task_id, action := .start, at_ := now }] },
       .ok)

/-- `task_complete`, route `POST /my/tasks/<id>/complete` (`src/app.py:600`):
same ownership check, then one `complete` time-log row and status `done`. -/
def task_complete (emp_id : Option Nat) (now : Int) (task_id : Nat) (st : TtState) :
    TtState × TaskActionOutcome :=
  match st.tasks.find? (fun t => t.id == task_id) with
  | none => (st, .noAccess)
  | some t =>
    if t.employee_id ≠ emp_id then (st, .noAccess)
    else
      ({ tasks := st.tasks.map (fun u =>
            if u.id == task_id then { u with status := "done", updated_at := now } else u)
         time_logs := st.time_logs ++
            [{ employee_id := emp_id, task_id := task_id, action := .complete, at_ := now }] },
       .ok)

/-- SQL `=` on a nullable integer column: NULL compares equal to nothing. -/
def sqlEqOptNat (a b : Option Nat) : Bool :=
  match a, b with
  | some x, some y => x == y
  | _, _ => false

/-- The JSON payload of `GET /my/activity.json`. -/
structure ActivityOut where
  labels : List Int
  start : List Nat
  complete : List Nat
deriving DecidableEq, Repr

/-- `my_activity_json` (`src/app.py:635`).  A timestamp is modelled as its
day index (the handler only ever applies `DATE(at)` and a day comparison),
and the `%Y-%m-%d` label for a day by the day index itself.  The SQL pulls
per-day/per-action counts for the employee's rows with `at >= today - 6`;
the handler then reads them back over the seven labels, days without rows
keeping their zero initialisation. -/
def my_activity_json (emp_id : Option Nat) (today : Int) (logs : List TimeLogRow) :
    ActivityOut :=
  let start_day := today - 6
  let labels := (List.range 7).map (fun (i : Nat) => start_day + (i : Int))
  let rows := logs.filter (fun r =>
    sqlEqOptNat r.employee_id emp_id && decide (start_day ≤ r.at_))
  { labels := labels
    start := labels.map (fun d =>
      rows.countP (fun r => r.action == TLAction.start && r.at_ == d))
    complete := labels.map (fun d =>
      rows.countP (fun r => r.action == TLAction.complete && r.at_ == d)) }

/-! ### Remote-action ledger and MDM webhook -/

/-- A row of the `admin_actions` table. -/
structure AdminActionRow where
  actor : String
  target_user_id : Option Nat
  device_id : Option String
  tool : String
  action : String
  status : String
  notes : Option String
  metadata : Option String
  started_at : Int
  ended_at : Option Int
deriving DecidableEq, Repr

/-- `log_admin_action` (`src/app.py:891`): append one row to `admin_actions`;
`ended` chooses the insert that also stamps `ended_at`. -/
def log_admin_action (actor : String) (action : String) (tool : String)
    (target_user_id : Option Nat) (device_id : Option String) (status : String)
    (notes : Option String) (metadata : Option String) (ended : Bool) (now : Int)
    (rows : List AdminActionRow) : List AdminActionRow :=
  rows ++ [{ actor := actor
             target_user_id := target_user_id
             device_id := device_id
             tool := tool
             action := action
             status := status
             notes := notes
             metadata := metadata
             started_at := now
             ended_at := if ended then some now else none }]

/-- The JSON body of `POST /hooks/mdm` after parsing: each field as the
`dict.get` of the handler sees it.  `target_user_id` abstracts the handler's
int/str digit parse as the parsed value. -/
structure MdmPayload where
  action : Option String
  tool : Option String
  target_user_id : Option Nat
  device_id : Option String
  status : Option String
  notes : Option String
  metadata : Option String
deriving DecidableEq, Repr

/-- HTTP response of the webhook. -/
inductive MdmResponse where
  | unauthorized
  | ok
  | bad_request
deriving DecidableEq, Repr

/-- `mdm_webhook`, route `POST /hooks/mdm` (`src/app.py:981`).  `expected` is
`MDM_WEBHOOK_TOKEN` from the environment (`none` when unset); the provided
token is the `X-Auth-Token` header or-else the `token` query parameter;
`body = none` models a JSON parse failure (the handler's except branch).
Returns the response, the HTTP status code, and the new `admin_actions`
table. -/
def mdm_webhook (expected : Option String) (header_token query_token : Option String)
    (body : Option MdmPayload) (now : Int) (rows : List AdminActionRow) :
    MdmResponse × Nat × List AdminActionRow :=
  let provided := pyOrOpt header_token query_token
  match expected with
  | none => (.unauthorized, 401, rows)
  | some e =>
    if e = "" then (.unauthorized, 401, rows)
    else if provided ≠ some e then (.unauthorized, 401, rows)
    else
      match body with
      | none => (.bad_request, 400, rows)
      | some data =>
        let action_name := pyOr data.action "remote_action"
        let tool := pyOr data.tool "MDM"
        let status := pyOr data.status "in_progress"
        let ended := status == "completed" || status == "failed"
        (.ok, 200,
          log_admin_action "mdm" action_name tool data.target_user_id data.device_id
            status data.notes data.metadata ended now rows)

/-! ### File uploads: sanitisation and stored names -/

/-- The characters werkzeug's `secure_filename` keeps: `[A-Za-z0-9_.-]`. -/
def keepChar (c : Char) : Bool :=
  (65 ≤ c.toNat && c.toNat ≤ 90) || (97 ≤ c.toNat && c.toNat ≤ 122)
    || (48 ≤ c.toNat && c.toNat ≤ 57) || c.toNat == 95 || c.toNat == 46 || c.toNat == 45

/-- `'.'` or `'_'`: the characters `secure_filename` strips from the ends. -/
def isDotUnd (c : Char) : Bool :=
  c.toNat == 46 || c.toNat == 95

/-- A dot. -/
def isDot (c : Char) : Bool :=
  c.toNat == 46

/-- An ASCII digit, as produced by `strftime("%Y%m%d%H%M%S%f")`. -/
def isDigitChar (c : Char) : Bool :=
  48 ≤ c.toNat && c.toNat ≤ 57

/-- Python `str.split()` (split on whitespace runs, dropping empty words);
`cur` accumulates the current word reversed. -/
def splitWsAux : List Char → List Char → List (List Char)
  | [], cur => if cur.isEmpty then [] else [cur.reverse]
  | c :: rest, cur =>
    if isSpaceChar c then
      if cur.isEmpty then splitWsAux rest [] else cur.reverse :: splitWsAux rest []
    else splitWsAux rest (c :: cur)

/-- Python `str.split()`. -/
def splitWs (l : List Char) : List (List Char) :=
  splitWsAux l []

/-- Python `str.strip("._")`: drop `'.'` and `'_'` from both ends. -/
def stripDotUnd (l : List Char) : List Char :=
  ((l.dropWhile isDotUnd).reverse.dropWhile isDotUnd).reverse

/-- `werkzeug.utils.secure_filename` on ASCII input under POSIX: replace the
path separator by a space, collapse whitespace runs to single `'_'`
(`"_".join(filename.split())`), drop every character outside `[A-Za-z0-9_.-]`,
and strip `"._"` from both ends.  (The NFKD/ASCII normalisation is the
identity on ASCII input and the Windows device-name special case does not
apply on POSIX.) -/
def secure_filename (filename : List Char) : List Char :=
  let f1 := filename.map (fun c => if c.toNat == 47 then ' ' else c)
  let f2 := List.intercalate ['_'] (splitWs f1)
  let f3 := f2.filter keepChar
  stripDotUnd f3

/-- `os.path.splitext` for a plain file name (no separator): split at the
last dot, unless every character before that dot is itself a dot. -/
def splitext (p : List Char) : List Char × List Char :=
  match p.reverse.dropWhile (fun c => !(isDot c)) with
  | [] => (p, [])
  | c :: b =>
    if b.all isDot then (p, [])
    else (b.reverse, c :: (p.reverse.takeWhile (fun c => !(isDot c))).reverse)

/-- The characters after the last dot (`filename.rsplit(".", 1)[1]`). -/
def extAfterLastDot (l : List Char) : List Char :=
  (l.reverse.takeWhile (fun c => !(isDot c))).reverse

/-- ASCII lowercasing, as Python `str.lower()` acts on ASCII. -/
def lowerChar (c : Char) : Char :=
  if 65 ≤ c.toNat ∧ c.toNat ≤ 90 then Char.ofNat (c.toNat + 32) else c

/-- The image allowlist `ALLOWED_EXTENSIONS` (`src/app.py:44`). -/
def ALLOWED_EXTENSIONS : List (List Char) :=
  [['p','n','g'], ['j','p','g'], ['j','p','e','g'], ['g','i','f'], ['w','e','b','p']]

/-- `allowed_file` (`src/app.py:51`): the name contains a dot and its
lower-cased final extension is on the allowlist. -/
def allowed_file (filename : List Char) : Bool :=
  filename.contains '.'
    && ALLOWED_EXTENSIONS.contains ((extAfterLastDot filename).map lowerChar)

/-- The stored name an accepted upload gets (`src/app.py:1046`-`1050`):
`safe_name = secure_filename(file.filename)`,
`name, ext = os.path.splitext(safe_name)`, and the stored name is
`f"{name}-{timestamp}{ext}"` with
`timestamp = utcnow().strftime("%Y%m%d%H%M%S%f")`, a 20-digit string. -/
def storedName (original : List Char) (timestamp : List Char) : List Char :=
  let safe_name := secure_filename original
  let ne := splitext safe_name
  ne.1 ++ '-' :: (timestamp ++ ne.2)

/-! ### Content CRUD data model -/

/-- A row of the `services` table. -/
structure ServiceRow where
  id : Nat
  title : String
  description : String
  is_active : Bool
  featured : Bool
  sort_order : Int
  image_filename : Option (List Char)
  created_at : Int
  updated_at : Int
deriving DecidableEq, Repr

/-- A row of the `employees` table. -/
structure EmployeeRow where
  id : Nat
  name : String
  position : String
  photo_filename : Option (List Char)
  is_active : Bool
  sort_order : Int
  created_at : Int
  updated_at : Int
deriving DecidableEq, Repr

/-- The form a service create/edit POST submits; `image = some fn` is an
uploaded file with (non-empty) client filename `fn`, `none` the Python-falsy
cases `not file or not file.filename`. -/
structure ServiceForm where
  title : String
  description : String
  is_active : Bool
  featured : Bool
  sort_order : Int
  image : Option (List Char)
deriving DecidableEq, Repr

/-- The form an employee create/edit POST submits. -/
structure EmployeeForm where
  name : String
  position : String
  is_active : Bool
  sort_order : Int
  photo : Option (List Char)
deriving DecidableEq, Repr

/-- Flash outcome of a create/edit handler. -/
inductive CrudOutcome where
  | invalidImage
  | missingFields
  | saved
deriving DecidableEq, Repr

/-- `admin_services_new`, POST branch (`src/app.py:1031`): validate and
store an uploaded image (rejection aborts before any write; acceptance
saves the file before the title check, as in the source), require the
title, then insert the row.  `ts` is the request's timestamp string, `now`
its clock, `new_id` the auto-increment id, `files` the upload directory. -/
def admin_services_new (form : ServiceForm) (ts : List Char) (now : Int) (new_id : Nat)
    (services : List ServiceRow) (files : List (List Char)) :
    List ServiceRow × List (List Char) × CrudOutcome :=
  let title := pyStripS form.title
  let description := pyStripS form.description
  match form.image with
  | some fn =>
    if !(allowed_file fn) then (services, files, .invalidImage)
    else
      let image_filename := storedName fn ts
      if title = "" then (services, files ++ [image_filename], .missingFields)
      else
        (services ++ [{ id := new_id, title := title, description := description,
                        is_active := form.is_active, featured := form.featured,
                        sort_order := form.sort_order,
                        image_filename := some image_filename,
                        created_at := now, updated_at := now }],
         files ++ [image_filename], .saved)
  | none =>
    if title = "" then (services, files, .missingFields)
    else
      (services ++ [{ id := new_id, title := title, description := description,
                      is_active := form.is_active, featured := form.featured,
                      sort_order := form.sort_order, image_filename := none,
                      created_at := now, updated_at := now }],
       files, .saved)

/-- `admin_employees_new`, POST branch (`src/app.py:1172`). -/
def admin_employees_new (form : EmployeeForm) (ts : List Char) (now : Int) (new_id : Nat)
    (employees : List EmployeeRow) (files : List (List Char)) :
    List EmployeeRow × List (List Char) × CrudOutcome :=
  let name := pyStripS form.name
  let position := pyStripS form.position
  match form.photo with
  | some fn =>
    if !(allowed_file fn) then (employees, files, .invalidImage)
    else
      let photo_filename := storedName fn ts
      if name = "" ∨ position = "" then (employees, files ++ [photo_filename], .missingFields)
      else
        (employees ++ [{ id := new_id, name := name, position := position,
                         photo_filename := some photo_filename,
                         is_active := form.is_active, sort_order := form.sort_order,
                         created_at := now, updated_at := now }],
         files ++ [photo_filename], .saved)
  | none =>
    if name = "" ∨ position = "" then (employees, files, .missingFields)
    else
      (employees ++ [{ id := new_id, name := name, position := position,
                       photo_filename := none,
                       is_active := form.is_active, sort_order := form.sort_order,
                       created_at := now, updated_at := now }],
       files, .saved)

/-- `admin_services_edit`, POST branch (`src/app.py:1087`): the UPDATE
includes `image_filename` only when a new file was supplied and accepted. -/
def admin_services_edit (service_id : Nat) (form : ServiceForm) (ts : List Char)
    (now : Int) (services : List ServiceRow) (files : List (List Char)) :
    List ServiceRow × List (List Char) × CrudOutcome :=
  let title := pyStripS form.title
  let description := pyStripS form.description
  match form.image with
  | some fn =>
    if !(allowed_file fn) then (services, files, .invalidImage)
    else
      let image_filename := storedName fn ts
      if title = "" then (services, files ++ [image_filename], .missingFields)
      else
        (services.map (fun s =>
            if s.id == service_id then
              { s with title := title, description := description,
                       is_active := form.is_active, featured := form.featured,
                       sort_order := form.sort_order,
                       image_filename := some image_filename, updated_at := now }
            else s),
         files ++ [image_filename], .saved)
  | none =>
    if title = "" then (services, files, .missingFields)
    else
      (services.map (fun s =>
          if s.id == service_id then
            { s with title := title, description := description,
                     is_active := form.is_active, featured := form.featured,
                     sort_order := form.sort_order, updated_at := now }
          else s),
       files, .saved)

/-- `admin_employees_edit`, POST branch (`src/app.py:1216`): the UPDATE
includes `photo_filename` only when a new file was supplied and accepted. -/
def admin_employees_edit (emp_id : Nat) (form : EmployeeForm) (ts : List Char)
    (now : Int) (employees : List EmployeeRow) (files : List (List Char)) :
    List EmployeeRow × List (List Char) × CrudOutcome :=
  let name := pyStripS form.name
  let position := pyStripS form.position
  match form.photo with
  | some fn =>
    if !(allowed_file fn) then (employees, files, .invalidImage)
    else
      let photo_filename := storedName fn ts
      if name = "" ∨ position = "" then (employees, files ++ [photo_filename], .missingFields)
      else
        (employees.map (fun e =>
            if e.id == emp_id then
              { e with name := name, position := position,
                       photo_filename := some photo_filename,
                       is_active := form.is_active, sort_order := form.sort_order,
                       updated_at := now }
            else e),
         files ++ [photo_filename], .saved)
  | none =>
    if name = "" ∨ position = "" then (employees, files, .missingFields)
    else
      (employees.map (fun e =>
          if e.id == emp_id then
            { e with name := name, position := position,
                     is_active := form.is_active, sort_order := form.sort_order,
                     updated_at := now }
          else e),
       files, .saved)

/-! ### Claim theorems -/

/-- A fixed request context for concrete evaluations. -/
def ctx0 : ReqCtx := { ip := some "10.0.0.1", ua := some "Mozilla/5.0" }

/-- C1 (code_bug evaluation): `GET /logout` does not behave as specified.
For a database-user session it pops `user_id` before the audit check reads
it, so no logout entry at all is recorded; for an admin session it leaves
`admin_logged_in` set, so the session is not cleared (while `/admin/logout`
does clear everything and record one admin logout entry). -/
theorem user_logout_audit_bug :
    (user_logout ctx0
        { admin_logged_in := false, user_id := some 5,
          user_role := some "employee", employee_id := some 3 } []).2 = []
    ∧ (user_logout ctx0
        { admin_logged_in := true, user_id := none,
          user_role := none, employee_id := none } []).1.admin_logged_in = true
    ∧ ((admin_logout ctx0
        { admin_logged_in := true, user_id := none,
          user_role := none, employee_id := none } []).1 = Session.empty
        ∧ (admin_logout ctx0
            { admin_logged_in := true, user_id := none,
              user_role := none, employee_id := none } []).2.length = 1) := by
  refine ⟨rfl, rfl, rfl, rfl⟩

/-- C2 (counterexample): submitting exactly the environment's admin
credentials does not always give an admin session, because the handler
strips the submitted fields before comparing: with `ADMIN_PASSWORD` equal to
`"secret "` (trailing blank), submitting exactly that password falls through
to the database-user check and fails. -/
theorem signin_env_equality_insufficient :
    (signin ctx0 "admin" "secret " (fun _ _ => false) [] none
        "admin" "secret " Session.empty []).outcome = .invalidCredentials
    ∧ (signin ctx0 "admin" "secret " (fun _ _ => false) [] none
        "admin" "secret " Session.empty []).outcome ≠ .adminLoggedIn := by
  refine ⟨by decide, by decide⟩

/-- C2 (amended): if the submitted username and password, after the
handler's whitespace stripping, equal the admin username and password read
fresh from the environment, `signin` establishes an admin session and never
reaches the database user check — whatever rows the `users` table holds. -/
theorem signin_admin_credentials_give_admin_session
    (ctx : ReqCtx) (env_user env_pass : String)
    (check : String → String → Bool) (users : List UserRow)
    (next_url : Option String) (form_username form_password : String)
    (s : Session) (log : List AuthLogEntry)
    (hu : pyStripS form_username = env_user)
    (hp : pyStripS form_password = env_pass) :
    (signin ctx env_user env_pass check users next_url form_username form_password s log).outcome
        = .adminLoggedIn
    ∧ (signin ctx env_user env_pass check users next_url form_username form_password s log).session
        = { Session.empty with admin_logged_in := true }
    ∧ (signin ctx env_user env_pass check users next_url form_username form_password s log).db_queried
        = false := by
  unfold signin
  simp [hu, hp]

/-- C2 witness: the amended theorem applied at a concrete attempt where a
database user row with the same username exists. -/
theorem signin_admin_credentials_witness :
    (signin ctx0 "admin" "pw" (fun h p => h = "h:" ++ p)
        [{ id := 1, username := "admin", password_hash := "h:other",
           role := "employee", is_active := true, employee_id := some 2 }]
        none "admin" "pw" Session.empty []).outcome = .adminLoggedIn
    ∧ (signin ctx0 "admin" "pw" (fun h p => h = "h:" ++ p)
        [{ id := 1, username := "admin", password_hash := "h:other",
           role := "employee", is_active := true, employee_id := some 2 }]
        none "admin" "pw" Session.empty []).session
        = { Session.empty with admin_logged_in := true }
    ∧ (signin ctx0 "admin" "pw" (fun h p => h = "h:" ++ p)
        [{ id := 1, username := "admin", password_hash := "h:other",
           role := "employee", is_active := true, employee_id := some 2 }]
        none "admin" "pw" Session.empty []).db_queried = false :=
  signin_admin_credentials_give_admin_session ctx0 "admin" "pw" (fun h p => h = "h:" ++ p)
    [{ id := 1, username := "admin", password_hash := "h:other",
       role := "employee", is_active := true, employee_id := some 2 }]
    none "admin" "pw" Session.empty [] (by decide) (by decide)

/-- C3: every `POST /signin` attempt appends exactly one auth-log entry,
tagged `login_success` exactly when a session was established and
`login_failure` otherwise — never both tags for one attempt. -/
theorem signin_logs_exactly_one_entry
    (ctx : ReqCtx) (env_user env_pass : String)
    (check : String → String → Bool) (users : List UserRow)
    (next_url : Option String) (form_username form_password : String)
    (s : Session) (log : List AuthLogEntry) :
    ∃ e : AuthLogEntry,
      (signin ctx env_user env_pass check users next_url form_username form_password s log).log
          = log ++ [e]
      ∧ e.action =
          (if (signin ctx env_user env_pass check users next_url form_username form_password
                s log).outcome = .invalidCredentials
           then AuthAction.login_failure else AuthAction.login_success) := by
  unfold signin
  by_cases hadm : pyStripS form_username = env_user ∧ pyStripS form_password = env_pass
  · simp [hadm, log_auth_event]
  · simp only [if_neg hadm]
    cases hfind : users.find? (fun u => u.username == pyStripS form_username) with
    | none => simp [log_auth_event]
    | some u =>
      by_cases hok : u.is_active = false ∨ check u.password_hash (pyStripS form_password) = false
      · simp [hok, log_auth_event]
      · simp [hok, log_auth_event]

/-- C10: both success paths of `signin` call `session.clear()` before
setting the new identity, so immediately after a successful sign-in the
session carries exactly one identity: an admin session holds no user keys,
and a database-user session does not hold the admin flag. -/
theorem signin_single_identity
    (ctx : ReqCtx) (env_user env_pass : String)
    (check : String → String → Bool) (users : List UserRow)
    (next_url : Option String) (form_username form_password : String)
    (s : Session) (log : List AuthLogEntry)
    (h : (signin ctx env_user env_pass check users next_url form_username form_password
          s log).outcome ≠ .invalidCredentials) :
    ¬((signin ctx env_user env_pass check users next_url form_username form_password
          s log).session.admin_logged_in = true
      ∧ ((signin ctx env_user env_pass check users next_url form_username form_password
          s log).session.user_id).isSome = true) := by
  unfold signin at *
  by_cases hadm : pyStripS form_username = env_user ∧ pyStripS form_password = env_pass
  · simp [hadm, Session.empty] at *
  · simp only [if_neg hadm] at *
    cases hfind : users.find? (fun u => u.username == pyStripS form_username) with
    | none => simp [hfind] at h
    | some u =>
      by_cases hok : u.is_active = false ∨ check u.password_hash (pyStripS form_password) = false
      · simp [hfind, hok] at h
      · simp [hfind, hok, Session.empty]

/-- C10 witness: a concrete successful database-user sign-in carries no
admin flag. -/
theorem signin_single_identity_witness :
    ¬((signin ctx0 "admin" "pw" (fun h p => h = "h:" ++ p)
        [{ id := 7, username := "amy", password_hash := "h:amypw",
           role := "employee", is_active := true, employee_id := some 4 }]
        none "amy" "amypw" Session.empty []).session.admin_logged_in = true
      ∧ ((signin ctx0 "admin" "pw" (fun h p => h = "h:" ++ p)
        [{ id := 7, username := "amy", password_hash := "h:amypw",
           role := "employee", is_active := true, employee_id := some 4 }]
        none "amy" "amypw" Session.empty []).session.user_id).isSome = true) :=
  signin_single_identity ctx0 "admin" "pw" (fun h p => h = "h:" ++ p)
    [{ id := 7, username := "amy", password_hash := "h:amypw",
       role := "employee", is_active := true, employee_id := some 4 }]
    none "amy" "amypw" Session.empty [] (by decide)

/-! Helper lemmas for the task-tracking claims. -/

/-- `find?` by task id commutes with an id-preserving row update. -/
theorem find?_taskRow_map (l : List TaskRow) (task_id : Nat) (f : TaskRow → TaskRow)
    (hid : ∀ u, (f u).id = u.id) :
    (l.map f).find? (fun t => t.id == task_id) =
      (l.find? (fun t => t.id == task_id)).map f := by
  rw [List.find?_map]
  have hpred : ((fun t : TaskRow => t.id == task_id) ∘ f) = (fun t => t.id == task_id) := by
    funext u
    simp [Function.comp, hid]
  rw [hpred]

/-- C4: for every task and caller, if the task exists and its `employee_id`
equals the caller's session employee id, `start` appends one `start`
time-log event and sets the task's status to `in_progress`, and `complete`
after it appends one `complete` event and sets the status to `done`, the
two events ending up in that order; if the task is missing or not owned by
the caller, `start` mutates neither the tasks nor the time log and reports
a no-access error. -/
theorem task_start_complete_spec (emp_id : Option Nat) (now1 now2 : Int) (task_id : Nat)
    (st : TtState) :
    ((∀ t ∈ st.tasks.find? (fun t => t.id == task_id), t.employee_id ≠ emp_id) →
        task_start emp_id now1 task_id st = (st, .noAccess))
    ∧ ∀ t, st.tasks.find? (fun t => t.id == task_id) = some t → t.employee_id = emp_id →
        ((task_start emp_id now1 task_id st).2 = .ok
        ∧ (task_start emp_id now1 task_id st).1.time_logs = st.time_logs ++
            [{ employee_id := emp_id, task_id := task_id, action := .start, at_ := now1 }]
        ∧ (∀ u ∈ (task_start emp_id now1 task_id st).1.tasks,
            u.id = task_id → u.status = "in_progress")
        ∧ (∀ u ∈ st.tasks, u.id ≠ task_id → u ∈ (task_start emp_id now1 task_id st).1.tasks)
        ∧ (task_complete emp_id now2 task_id (task_start emp_id now1 task_id st).1).2 = .ok
        ∧ (task_complete emp_id now2 task_id (task_start emp_id now1 task_id st).1).1.time_logs
            = st.time_logs ++
              [{ employee_id := emp_id, task_id := task_id, action := .start, at_ := now1 },
               { employee_id := emp_id, task_id := task_id, action := .complete, at_ := now2 }]
        ∧ (∀ u ∈ (task_complete emp_id now2 task_id
              (task_start emp_id now1 task_id st).1).1.tasks,
            u.id = task_id → u.status = "done")) := by
  constructor
  · intro h
    unfold task_start
    cases hf : st.tasks.find? (fun t => t.id == task_id) with
    | none => simp
    | some t =>
      have ht := h t (by rw [hf]; exact Option.mem_some_self t)
      simp [ht]
  · intro t hf ho
    have htid : (t.id == task_id) = true := by
      have h := List.find?_some hf
      simpa using h
    have hstart : task_start emp_id now1 task_id st =
        ({ tasks := st.tasks.map (fun u =>
              if u.id == task_id then { u with status := "in_progress", updated_at := now1 }
              else u)
           time_logs := st.time_logs ++
              [{ employee_id := emp_id, task_id := task_id, action := .start, at_ := now1 }] },
         .ok) := by
      unfold task_start
      simp [hf, ho]
    have hfind1 : (task_start emp_id now1 task_id st).1.tasks.find?
        (fun t => t.id == task_id) =
          some { t with status := "in_progress", updated_at := now1 } := by
      rw [hstart]
      rw [find?_taskRow_map _ _ _ (by intro u; by_cases h : (u.id == task_id) <;> simp [h])]
      rw [hf]
      have htid' : t.id = task_id := by simpa using htid
      simp [htid']
    have hcomp : task_complete emp_id now2 task_id (task_start emp_id now1 task_id st).1 =
        ({ tasks := (task_start emp_id now1 task_id st).1.tasks.map (fun u =>
              if u.id == task_id then { u with status := "done", updated_at := now2 }
              else u)
           time_logs := (task_start emp_id now1 task_id st).1.time_logs ++
              [{ employee_id := emp_id, task_id := task_id, action := .complete, at_ := now2 }] },
         .ok) := by
      unfold task_complete
      rw [hfind1]
      simp [ho]
    refine ⟨by rw [hstart], by rw [hstart], ?_, ?_, ?_, ?_, ?_⟩
    · rw [hstart]
      intro u hu huid
      rcases List.mem_map.mp hu with ⟨v, _, hv⟩
      by_cases hvid : (v.id == task_id)
      · simp [hvid] at hv
        rw [← hv]
      · simp [hvid] at hv
        subst hv
        exact absurd (beq_iff_eq.mpr huid) (by simpa using hvid)
    · rw [hstart]
      intro u hu huid
      refine List.mem_map.mpr ⟨u, hu, ?_⟩
      simp [beq_iff_eq, huid]
    · rw [hcomp]
    · rw [hcomp, hstart]
      simp
    · rw [hcomp]
      intro u hu huid
      rcases List.mem_map.mp hu with ⟨v, _, hv⟩
      by_cases hvid : (v.id == task_id)
      · simp [hvid] at hv
        rw [← hv]
      · simp [hvid] at hv
        subst hv
        exact absurd (beq_iff_eq.mpr huid) (by simpa using hvid)

/-- C4 witness: a concrete owned task is started and completed; a concrete
unowned task is untouched. -/
theorem task_start_complete_witness :
    ((task_start (some 3) 10 1
        { tasks := [{ id := 1, employee_id := some 3, status := "todo", updated_at := 0 }],
          time_logs := [] }).2 = .ok
    ∧ (task_start (some 3) 10 1
        { tasks := [{ id := 1, employee_id := some 3, status := "todo", updated_at := 0 }],
          time_logs := [] }).1.time_logs =
        [{ employee_id := some 3, task_id := 1, action := .start, at_ := 10 }]
    ∧ (task_complete (some 3) 20 1 (task_start (some 3) 10 1
        { tasks := [{ id := 1, employee_id := some 3, status := "todo", updated_at := 0 }],
          time_logs := [] }).1).1.time_logs =
        [{ employee_id := some 3, task_id := 1, action := .start, at_ := 10 },
         { employee_id := some 3, task_id := 1, action := .complete, at_ := 20 }])
    ∧ task_start (some 9) 10 1
        { tasks := [{ id := 1, employee_id := some 3, status := "todo", updated_at := 0 }],
          time_logs := [] } =
        ({ tasks := [{ id := 1, employee_id := some 3, status := "todo", updated_at := 0 }],
           time_logs := [] }, .noAccess) := by
  constructor
  · have h := (task_start_complete_spec (some 3) 10 20 1
      { tasks := [{ id := 1, employee_id := some 3, status := "todo", updated_at := 0 }],
        time_logs := [] }).2
      { id := 1, employee_id := some 3, status := "todo", updated_at := 0 }
      (by decide) rfl
    exact ⟨h.1, by rw [h.2.1]; rfl, by rw [h.2.2.2.2.2.1]; rfl⟩
  · exact (task_start_complete_spec (some 9) 10 20 1
      { tasks := [{ id := 1, employee_id := some 3, status := "todo", updated_at := 0 }],
        time_logs := [] }).1 (by decide)

/-! Helper lemmas for the activity aggregation claim. -/

/-- Counting a disjunction of disjoint predicates adds the counts. -/
theorem countP_or_disjoint {α : Type} (q q' : α → Bool) (l : List α)
    (h : ∀ a, ¬(q a = true ∧ q' a = true)) :
    l.countP (fun a => q a || q' a) = l.countP q + l.countP q' := by
  induction l with
  | nil => simp
  | cons a l ih =>
    rw [List.countP_cons, List.countP_cons, List.countP_cons, ih]
    cases hq : q a with
    | true =>
      have hq' : q' a = false := by
        cases hq2 : q' a with
        | true => exact absurd ⟨hq, hq2⟩ (h a)
        | false => rfl
      simp [hq, hq']
      omega
    | false =>
      simp [hq]
      omega

/-- Summing per-key counts over a duplicate-free key list counts the keys in
the list. -/
theorem sum_map_countP_window {α : Type} (key : α → Int) (p : α → Bool) :
    ∀ L : List Int, L.Nodup → ∀ l : List α,
      (L.map (fun d => l.countP (fun r => p r && key r == d))).sum
        = l.countP (fun r => p r && L.contains (key r)) := by
  intro L
  induction L with
  | nil =>
    intro _ l
    simp
  | cons d L ih =>
    intro hL l
    have hd : d ∉ L := (List.nodup_cons.mp hL).1
    have hdisj : ∀ a, ¬((fun r => p r && key r == d) a = true
        ∧ (fun r => p r && L.contains (key r)) a = true) := by
      intro a ha
      rcases ha with ⟨h1, h2⟩
      simp only [Bool.and_eq_true, beq_iff_eq] at h1 h2
      rw [← h1.2] at hd
      exact hd (by simpa using h2.2)
    rw [List.map_cons, List.sum_cons, ih hL.of_cons l, ← countP_or_disjoint _ _ _ hdisj]
    apply List.countP_congr
    intro x _
    simp [List.contains_cons, Bool.and_or_distrib_left]

/-- The seven window labels are pairwise distinct. -/
theorem seven_window_nodup (today : Int) :
    ([today - 6, today - 5, today - 4, today - 3, today - 2, today - 1, today] :
      List Int).Nodup := by
  simp

/-- Membership in the seven window labels is the window bound check. -/
theorem contains_seven_window (today x : Int) :
    (([today - 6, today - 5, today - 4, today - 3, today - 2, today - 1, today] :
        List Int).contains x)
      = (decide (today - 6 ≤ x) && decide (x ≤ today)) := by
  rw [Bool.eq_iff_iff]
  simp only [List.contains_cons, List.contains_nil, Bool.or_eq_true, beq_iff_eq,
    Bool.and_eq_true, decide_eq_true_eq, Bool.false_eq_true, or_false]
  omega

/-- On a day inside the window, the handler's per-day count over the
SQL-filtered rows is the plain per-day count. -/
theorem activity_day_pred_eq (emp_id : Option Nat) (sd d : Int) (hd : sd ≤ d)
    (act : TLAction) (r : TimeLogRow) :
    ((r.action == act && r.at_ == d)
        && (sqlEqOptNat r.employee_id emp_id && decide (sd ≤ r.at_)))
      = (sqlEqOptNat r.employee_id emp_id && (r.action == act) && (r.at_ == d)) := by
  by_cases hat : r.at_ = d
  · have hle : decide (sd ≤ r.at_) = true := decide_eq_true (by omega)
    rw [Bool.eq_iff_iff]
    simp [hat, hle]
    tauto
  · have hne : (r.at_ == d) = false := by simpa using hat
    simp [hne]

/-- Combining the window membership test with the SQL filter gives the
window predicate. -/
theorem activity_window_pred_eq (emp_id : Option Nat) (today : Int)
    (act : TLAction) (r : TimeLogRow) :
    ((r.action == act && (decide (today - 6 ≤ r.at_) && decide (r.at_ ≤ today)))
        && (sqlEqOptNat r.employee_id emp_id && decide (today - 6 ≤ r.at_)))
      = (sqlEqOptNat r.employee_id emp_id && (r.action == act)
          && decide (today - 6 ≤ r.at_) && decide (r.at_ ≤ today)) := by
  rw [Bool.eq_iff_iff]
  simp only [Bool.and_eq_true, decide_eq_true_eq]
  tauto

/-- Per-day counts over the SQL-filtered rows, for a window day. -/
theorem activity_counts (emp_id : Option Nat) (today : Int) (logs : List TimeLogRow)
    (act : TLAction) (d : Int) (hd : today - 6 ≤ d) :
    ((logs.filter (fun r =>
        sqlEqOptNat r.employee_id emp_id && decide (today - 6 ≤ r.at_))).countP
      (fun r => (r.action == act) && (r.at_ == d)))
      = logs.countP (fun r =>
          sqlEqOptNat r.employee_id emp_id && (r.action == act) && (r.at_ == d)) := by
  rw [List.countP_filter]
  apply List.countP_congr
  intro r _
  rw [activity_day_pred_eq emp_id (today - 6) d hd act r]

/-- `sum_map_countP_window` specialised to time-log rows keyed by day. -/
theorem sum_map_countP_tl (act : TLAction) (L : List Int) (hL : L.Nodup)
    (l : List TimeLogRow) :
    (L.map (fun d => l.countP (fun r => r.action == act && r.at_ == d))).sum
      = l.countP (fun r => r.action == act && L.contains r.at_) :=
  sum_map_countP_window (fun r => r.at_) (fun r => r.action == act) L hL l

/-- The seven per-day counts sum to the employee's event count in the window. -/
theorem activity_sum (emp_id : Option Nat) (today : Int) (logs : List TimeLogRow)
    (act : TLAction) :
    ((([today - 6, today - 5, today - 4, today - 3, today - 2, today - 1, today] :
        List Int).map (fun d =>
          (logs.filter (fun r =>
              sqlEqOptNat r.employee_id emp_id && decide (today - 6 ≤ r.at_))).countP
            (fun r => (r.action == act) && (r.at_ == d)))).sum)
      = logs.countP (fun r => sqlEqOptNat r.employee_id emp_id && (r.action == act)
          && decide (today - 6 ≤ r.at_) && decide (r.at_ ≤ today)) := by
  rw [sum_map_countP_tl act _ (seven_window_nodup today)]
  rw [List.countP_filter]
  apply List.countP_congr
  intro r _
  rw [contains_seven_window, activity_window_pred_eq]

/-- C6: for every requesting employee and every time-log state, the activity
aggregation returns exactly 7 labeled days in ascending order ending at
today; the per-day start/complete entries are exactly the counts of that
employee's events on each day (zero for days without events), and their sums
equal the employee's start/complete event counts in the 7-day window. -/
theorem my_activity_seven_days (emp_id : Option Nat) (today : Int)
    (logs : List TimeLogRow) :
    (my_activity_json emp_id today logs).labels =
        [today - 6, today - 5, today - 4, today - 3, today - 2, today - 1, today]
    ∧ (my_activity_json emp_id today logs).labels.length = 7
    ∧ (my_activity_json emp_id today logs).start =
        (my_activity_json emp_id today logs).labels.map (fun d =>
          logs.countP (fun r => sqlEqOptNat r.employee_id emp_id
            && (r.action == TLAction.start) && (r.at_ == d)))
    ∧ (my_activity_json emp_id today logs).complete =
        (my_activity_json emp_id today logs).labels.map (fun d =>
          logs.countP (fun r => sqlEqOptNat r.employee_id emp_id
            && (r.action == TLAction.complete) && (r.at_ == d)))
    ∧ (my_activity_json emp_id today logs).start.sum =
        logs.countP (fun r => sqlEqOptNat r.employee_id emp_id
          && (r.action == TLAction.start)
          && decide (today - 6 ≤ r.at_) && decide (r.at_ ≤ today))
    ∧ (my_activity_json emp_id today logs).complete.sum =
        logs.countP (fun r => sqlEqOptNat r.employee_id emp_id
          && (r.action == TLAction.complete)
          && decide (today - 6 ≤ r.at_) && decide (r.at_ ≤ today)) := by
  have h7 : List.range 7 = [0, 1, 2, 3, 4, 5, 6] := rfl
  have hL : ((List.range 7).map (fun (i : Nat) => today - 6 + (i : Int))) =
      [today - 6, today - 5, today - 4, today - 3, today - 2, today - 1, today] := by
    rw [h7]
    norm_num
    omega
  refine ⟨?_, ?_, ?_, ?_, ?_, ?_⟩
  · simp only [my_activity_json]
    exact hL
  · simp only [my_activity_json]
    rw [hL]
    rfl
  · simp only [my_activity_json]
    apply List.map_congr_left
    intro d hd
    rcases List.mem_map.mp hd with ⟨i, _, rfl⟩
    exact activity_counts emp_id today logs .start _ (by omega)
  · simp only [my_activity_json]
    apply List.map_congr_left
    intro d hd
    rcases List.mem_map.mp hd with ⟨i, _, rfl⟩
    exact activity_counts emp_id today logs .complete _ (by omega)
  · simp only [my_activity_json]
    rw [hL]
    exact activity_sum emp_id today logs .start
  · simp only [my_activity_json]
    rw [hL]
    exact activity_sum emp_id today logs .complete

/-- C5: `POST /hooks/mdm` is guarded by the shared-secret token: whenever the
expected token is unconfigured (unset or empty), or the provided token
(header or-else query parameter) is absent or different, the response is a
401 unauthorized and the `admin_actions` table is untouched; conversely a
record is only ever written when the configured token was provided and
matches. -/
theorem mdm_webhook_token_gate (expected header_token query_token : Option String)
    (body : Option MdmPayload) (now : Int) (rows : List AdminActionRow) :
    ((expected = none ∨ expected = some "" ∨ pyOrOpt header_token query_token ≠ expected) →
        mdm_webhook expected header_token query_token body now rows
          = (.unauthorized, 401, rows))
    ∧ ((mdm_webhook expected header_token query_token body now rows).2.2 ≠ rows →
        ∃ e, expected = some e ∧ e ≠ ""
          ∧ pyOrOpt header_token query_token = some e) := by
  cases hexp : expected with
  | none =>
    constructor
    · intro _
      rfl
    · intro hne
      exact absurd rfl hne
  | some e =>
    by_cases he : e = ""
    · subst he
      constructor
      · intro _
        simp [mdm_webhook]
      · intro hne
        simp [mdm_webhook] at hne
    · by_cases hp : pyOrOpt header_token query_token = some e
      · constructor
        · intro h
          rcases h with h | h | h
          · exact absurd h (by simp)
          · rw [Option.some_inj] at h
            exact absurd h he
          · exact absurd hp h
        · intro _
          exact ⟨e, rfl, he, hp⟩
      · constructor
        · intro _
          simp [mdm_webhook, he, hp]
        · intro hne
          simp [mdm_webhook, he, hp] at hne

/-- C5 witness: a wrong token is rejected without a write; a matching token
writes (so the only-when direction is exercised on a changed table). -/
theorem mdm_webhook_token_gate_witness :
    mdm_webhook (some "tok") (some "wrong") none
        (some { action := some "remote_session", tool := some "AnyDesk",
                target_user_id := some 1, device_id := some "PC-123",
                status := some "completed", notes := none, metadata := none }) 5 []
      = (.unauthorized, 401, [])
    ∧ ∃ e, (some "tok" : Option String) = some e ∧ e ≠ ""
        ∧ pyOrOpt (some "tok") none = some e := by
  constructor
  · exact (mdm_webhook_token_gate (some "tok") (some "wrong") none
      (some { action := some "remote_session", tool := some "AnyDesk",
              target_user_id := some 1, device_id := some "PC-123",
              status := some "completed", notes := none, metadata := none }) 5 []).1
      (Or.inr (Or.inr (by decide)))
  · exact (mdm_webhook_token_gate (some "tok") (some "tok") none
      (some { action := some "remote_session", tool := some "AnyDesk",
              target_user_id := some 1, device_id := some "PC-123",
              status := some "completed", notes := none, metadata := none }) 5 []).2
      (by decide)

/-- C7: a create or edit submission whose uploaded file has an extension
outside the image allowlist (case-insensitive) aborts with the invalid-type
error before any write: the table is untouched and no file is stored — for
every state of the tables and the upload directory. -/
theorem upload_reject_no_partial_write
    (fn : List Char)
    (hext : ALLOWED_EXTENSIONS.contains ((extAfterLastDot fn).map lowerChar) = false)
    (sform : ServiceForm) (eform : EmployeeForm) (ts : List Char) (now : Int)
    (new_id sid eid : Nat) (services : List ServiceRow) (employees : List EmployeeRow)
    (files : List (List Char))
    (hs : sform.image = some fn) (he : eform.photo = some fn) :
    admin_employees_new eform ts now new_id employees files
        = (employees, files, .invalidImage)
    ∧ admin_services_new sform ts now new_id services files
        = (services, files, .invalidImage)
    ∧ admin_services_edit sid sform ts now services files
        = (services, files, .invalidImage)
    ∧ admin_employees_edit eid eform ts now employees files
        = (employees, files, .invalidImage) := by
  have hall : allowed_file fn = false := by
    unfold allowed_file
    rw [hext]
    simp
  refine ⟨?_, ?_, ?_, ?_⟩
  · unfold admin_employees_new
    rw [he]
    simp [hall]
  · unfold admin_services_new
    rw [hs]
    simp [hall]
  · unfold admin_services_edit
    rw [hs]
    simp [hall]
  · unfold admin_employees_edit
    rw [he]
    simp [hall]

/-- C7 witness: a `.exe` photo on employee creation leaves no Employee row
and no stored file. -/
theorem upload_reject_witness :
    admin_employees_new
        { name := "Alice", position := "Dev", is_active := true, sort_order := 0,
          photo := some "photo.exe".data } "20250101000000000000".data 7 3 [] []
      = ([], [], .invalidImage) :=
  (upload_reject_no_partial_write "photo.exe".data (by decide)
    { title := "Hosting", description := "", is_active := true, featured := false,
      sort_order := 0, image := some "photo.exe".data }
    { name := "Alice", position := "Dev", is_active := true, sort_order := 0,
      photo := some "photo.exe".data }
    "20250101000000000000".data 7 3 1 1 [] [] [] rfl rfl).1

/-- C9: editing a Service or Employee without supplying a new image leaves
the stored image reference of every row unchanged while updating the other
submitted fields of the target row (and leaving other rows alone); the
image reference is replaced — by the freshly stored name — exactly when a
new file was supplied and accepted. -/
theorem edit_preserves_image_without_new_file
    (sid eid : Nat) (sform : ServiceForm) (eform : EmployeeForm) (ts : List Char)
    (now : Int) (services : List ServiceRow) (employees : List EmployeeRow)
    (files : List (List Char)) :
    (sform.image = none → pyStripS sform.title ≠ "" →
      ((admin_services_edit sid sform ts now services files).2.1 = files
      ∧ (admin_services_edit sid sform ts now services files).2.2 = .saved
      ∧ (admin_services_edit sid sform ts now services files).1.map
            (fun s => s.image_filename) = services.map (fun s => s.image_filename)
      ∧ (∀ s ∈ services, s.id ≠ sid →
          s ∈ (admin_services_edit sid sform ts now services files).1)
      ∧ (∀ s ∈ (admin_services_edit sid sform ts now services files).1, s.id = sid →
          s.title = pyStripS sform.title
          ∧ s.description = pyStripS sform.description
          ∧ s.is_active = sform.is_active
          ∧ s.featured = sform.featured
          ∧ s.sort_order = sform.sort_order
          ∧ s.updated_at = now)))
    ∧ (eform.photo = none → pyStripS eform.name ≠ "" → pyStripS eform.position ≠ "" →
      ((admin_employees_edit eid eform ts now employees files).2.1 = files
      ∧ (admin_employees_edit eid eform ts now employees files).2.2 = .saved
      ∧ (admin_employees_edit eid eform ts now employees files).1.map
            (fun e => e.photo_filename) = employees.map (fun e => e.photo_filename)
      ∧ (∀ e ∈ employees, e.id ≠ eid →
          e ∈ (admin_employees_edit eid eform ts now employees files).1)
      ∧ (∀ e ∈ (admin_employees_edit eid eform ts now employees files).1, e.id = eid →
          e.name = pyStripS eform.name
          ∧ e.position = pyStripS eform.position
          ∧ e.is_active = eform.is_active
          ∧ e.sort_order = eform.sort_order
          ∧ e.updated_at = now)))
    ∧ (∀ fn, sform.image = some fn → allowed_file fn = true → pyStripS sform.title ≠ "" →
        ∀ s ∈ (admin_services_edit sid sform ts now services files).1, s.id = sid →
          s.image_filename = some (storedName fn ts))
    ∧ (∀ fn, eform.photo = some fn → allowed_file fn = true →
        pyStripS eform.name ≠ "" → pyStripS eform.position ≠ "" →
        ∀ e ∈ (admin_employees_edit eid eform ts now employees files).1, e.id = eid →
          e.photo_filename = some (storedName fn ts)) := by
  refine ⟨?_, ?_, ?_, ?_⟩
  · intro hsi hst
    have hres : admin_services_edit sid sform ts now services files =
        (services.map (fun s =>
            if s.id == sid then
              { s with title := pyStripS sform.title,
                       description := pyStripS sform.description,
                       is_active := sform.is_active, featured := sform.featured,
                       sort_order := sform.sort_order, updated_at := now }
            else s),
         files, .saved) := by
      unfold admin_services_edit
      rw [hsi]
      simp [hst]
    refine ⟨by rw [hres], by rw [hres], ?_, ?_, ?_⟩
    · rw [hres, List.map_map]
      apply List.map_congr_left
      intro s _
      by_cases h : (s.id == sid) <;> simp [Function.comp, h]
    · rw [hres]
      intro s hs hne
      refine List.mem_map.mpr ⟨s, hs, ?_⟩
      have : (s.id == sid) = false := by simpa using hne
      simp [this]
    · rw [hres]
      intro s hs hid
      rcases List.mem_map.mp hs with ⟨v, _, hv⟩
      by_cases hvid : (v.id == sid)
      · simp [hvid] at hv
        rw [← hv]
        exact ⟨rfl, rfl, rfl, rfl, rfl, rfl⟩
      · simp [hvid] at hv
        subst hv
        exact absurd (beq_iff_eq.mpr hid) (by simpa using hvid)
  · intro hei hen hep
    have hres : admin_employees_edit eid eform ts now employees files =
        (employees.map (fun e =>
            if e.id == eid then
              { e with name := pyStripS eform.name,
                       position := pyStripS eform.position,
                       is_active := eform.is_active, sort_order := eform.sort_order,
                       updated_at := now }
            else e),
         files, .saved) := by
      unfold admin_employees_edit
      rw [hei]
      simp [hen, hep]
    refine ⟨by rw [hres], by rw [hres], ?_, ?_, ?_⟩
    · rw [hres, List.map_map]
      apply List.map_congr_left
      intro e _
      by_cases h : (e.id == eid) <;> simp [Function.comp, h]
    · rw [hres]
      intro e he hne
      refine List.mem_map.mpr ⟨e, he, ?_⟩
      have : (e.id == eid) = false := by simpa using hne
      simp [this]
    · rw [hres]
      intro e he hid
      rcases List.mem_map.mp he with ⟨v, _, hv⟩
      by_cases hvid : (v.id == eid)
      · simp [hvid] at hv
        rw [← hv]
        exact ⟨rfl, rfl, rfl, rfl, rfl⟩
      · simp [hvid] at hv
        subst hv
        exact absurd (beq_iff_eq.mpr hid) (by simpa using hvid)
  · intro fn hfn hok hst s hs hid
    have hres : admin_services_edit sid sform ts now services files =
        (services.map (fun s =>
            if s.id == sid then
              { s with title := pyStripS sform.title,
                       description := pyStripS sform.description,
                       is_active := sform.is_active, featured := sform.featured,
                       sort_order := sform.sort_order,
                       image_filename := some (storedName fn ts), updated_at := now }
            else s),
         files ++ [storedName fn ts], .saved) := by
      unfold admin_services_edit
      rw [hfn]
      simp [hok, hst]
    rw [hres] at hs
    rcases List.mem_map.mp hs with ⟨v, _, hv⟩
    by_cases hvid : (v.id == sid)
    · simp [hvid] at hv
      rw [← hv]
    · simp [hvid] at hv
      subst hv
      exact absurd (beq_iff_eq.mpr hid) (by simpa using hvid)
  · intro fn hfn hok hen hep e he hid
    have hres : admin_employees_edit eid eform ts now employees files =
        (employees.map (fun e =>
            if e.id == eid then
              { e with name := pyStripS eform.name,
                       position := pyStripS eform.position,
                       photo_filename := some (storedName fn ts),
                       is_active := eform.is_active, sort_order := eform.sort_order,
                       updated_at := now }
            else e),
         files ++ [storedName fn ts], .saved) := by
      unfold admin_employees_edit
      rw [hfn]
      simp [hok, hen, hep]
    rw [hres] at he
    rcases List.mem_map.mp he with ⟨v, _, hv⟩
    by_cases hvid : (v.id == eid)
    · simp [hvid] at hv
      rw [← hv]
    · simp [hvid] at hv
      subst hv
      exact absurd (beq_iff_eq.mpr hid) (by simpa using hvid)

/-- C9 witness: a concrete edit without a file keeps the stored image and
updates the title. -/
theorem edit_preserves_image_witness :
    (admin_services_edit 1
        { title := "New", description := "nd", is_active := true, featured := false,
          sort_order := 2, image := none }
        "20250101000000000000".data 5
        [{ id := 1, title := "Old", description := "od", is_active := false,
           featured := true, sort_order := 1,
           image_filename := some ['o', '.', 'p', 'n', 'g'],
           created_at := 0, updated_at := 0 }] []).1.map (fun s => s.image_filename)
      = ([{ id := 1, title := "Old", description := "od", is_active := false,
            featured := true, sort_order := 1,
            image_filename := some ['o', '.', 'p', 'n', 'g'],
            created_at := 0, updated_at := 0 }] : List ServiceRow).map
          (fun s => s.image_filename) :=
  ((edit_preserves_image_without_new_file 1 1
      { title := "New", description := "nd", is_active := true, featured := false,
        sort_order := 2, image := none }
      { name := "Amy", position := "Dev", is_active := true, sort_order := 0,
        photo := none }
      "20250101000000000000".data 5
      [{ id := 1, title := "Old", description := "od", is_active := false,
         featured := true, sort_order := 1,
         image_filename := some ['o', '.', 'p', 'n', 'g'],
         created_at := 0, updated_at := 0 }] [] []).1 rfl (by decide)).2.2.1

/-! Helper lemmas for the stored-filename claim: character classes, the
sanitiser's output shape and fixpoints, and `splitext` decomposition. -/

/-- Kept characters are not Python whitespace. -/

theorem keepChar_not_space (c : Char) (h : keepChar c = true) : isSpaceChar c = false := by
  simp only [keepChar, Bool.or_eq_true, Bool.and_eq_true, decide_eq_true_eq,
    beq_iff_eq] at h
  cases hb : isSpaceChar c with
  | false => rfl
  | true =>
    exfalso
    simp only [isSpaceChar, Bool.or_eq_true, Bool.and_eq_true, decide_eq_true_eq,
      beq_iff_eq] at hb
    omega

/-- Kept characters are not the path separator. -/
theorem keepChar_not_sep (c : Char) (h : keepChar c = true) : (c.toNat == 47) = false := by
  simp only [keepChar, Bool.or_eq_true, Bool.and_eq_true, decide_eq_true_eq,
    beq_iff_eq] at h
  cases hb : (c.toNat == 47) with
  | false => rfl
  | true =>
    exfalso
    simp only [beq_iff_eq] at hb
    omega

/-- Digits are kept and are neither dots nor underscores. -/
theorem digit_keep (c : Char) (h : isDigitChar c = true) :
    keepChar c = true ∧ isDot c = false ∧ isDotUnd c = false := by
  simp only [isDigitChar, Bool.and_eq_true, decide_eq_true_eq] at h
  refine ⟨?_, ?_, ?_⟩
  · simp only [keepChar, Bool.or_eq_true, Bool.and_eq_true, decide_eq_true_eq, beq_iff_eq]
    omega
  · cases hb : isDot c with
    | false => rfl
    | true =>
      exfalso
      simp only [isDot, beq_iff_eq] at hb
      omega
  · cases hb : isDotUnd c with
    | false => rfl
    | true =>
      exfalso
      simp only [isDotUnd, Bool.or_eq_true, beq_iff_eq] at hb
      omega

/-- The first remaining element after `dropWhile` fails the predicate. -/
theorem dropWhile_head_false {α : Type} (p : α → Bool) (l : List α) (c : α) (rest : List α)
    (h : l.dropWhile p = c :: rest) : p c = false := by
  induction l with
  | nil => simp at h
  | cons a l ih =>
    rw [List.dropWhile_cons] at h
    by_cases ha : p a
    · rw [if_pos ha] at h
      exact ih h
    · rw [if_neg ha] at h
      cases h
      simpa using ha

/-- Stripping only removes characters. -/
theorem mem_stripDotUnd (l : List Char) (x : Char) (h : x ∈ stripDotUnd l) : x ∈ l := by
  unfold stripDotUnd at h
  rw [List.mem_reverse] at h
  have h1 := (List.dropWhile_sublist (l := (l.dropWhile isDotUnd).reverse) isDotUnd).mem h
  rw [List.mem_reverse] at h1
  exact (List.dropWhile_sublist isDotUnd).mem h1

/-- The last character of a stripped list is not stripped material. -/
theorem stripDotUnd_rev_head (l : List Char) (c : Char) (rest : List Char)
    (h : (stripDotUnd l).reverse = c :: rest) : isDotUnd c = false := by
  unfold stripDotUnd at h
  rw [List.reverse_reverse] at h
  exact dropWhile_head_false _ _ _ _ h

/-- The first character of a stripped list is not stripped material. -/
theorem stripDotUnd_head (l : List Char) (c : Char) (rest : List Char)
    (h : stripDotUnd l = c :: rest) : isDotUnd c = false := by
  have hpre : (stripDotUnd l) <+: (l.dropWhile isDotUnd) := by
    unfold stripDotUnd
    conv_rhs => rw [← List.reverse_reverse (l.dropWhile isDotUnd)]
    rw [List.reverse_prefix]
    exact List.dropWhile_suffix isDotUnd
  rcases hpre with ⟨t, ht⟩
  rw [h] at ht
  exact dropWhile_head_false _ _ _ _ ht.symm

/-- Every character of a sanitised name is a kept character. -/
theorem secure_mem (l : List Char) (x : Char) (h : x ∈ secure_filename l) :
    keepChar x = true := by
  unfold secure_filename at h
  have h1 := mem_stripDotUnd _ _ h
  exact List.of_mem_filter h1

/-- A sanitised name never starts with `.` or `_`. -/
theorem secure_head (l : List Char) (c : Char) (rest : List Char)
    (h : secure_filename l = c :: rest) : isDotUnd c = false :=
  stripDotUnd_head _ _ _ h

/-- A sanitised name never ends with `.` or `_`. -/
theorem secure_rev_head (l : List Char) (c : Char) (rest : List Char)
    (h : (secure_filename l).reverse = c :: rest) : isDotUnd c = false :=
  stripDotUnd_rev_head _ _ _ h

/-- `splitWsAux` on whitespace-free input yields the single joined word. -/
theorem splitWsAux_no_ws :
    ∀ (l cur : List Char), (∀ c ∈ l, isSpaceChar c = false) →
      splitWsAux l cur =
        if (cur.reverse ++ l).isEmpty then [] else [cur.reverse ++ l] := by
  intro l
  induction l with
  | nil =>
    intro cur _
    unfold splitWsAux
    cases cur with
    | nil => rfl
    | cons a as => simp
  | cons c rest ih =>
    intro cur h
    have hc : isSpaceChar c = false := h c (List.mem_cons_self c rest)
    unfold splitWsAux
    rw [hc]
    simp only [Bool.false_eq_true, if_false]
    rw [ih (c :: cur) (fun x hx => h x (List.mem_cons_of_mem c hx))]
    have hrw : (c :: cur).reverse ++ rest = cur.reverse ++ c :: rest := by
      simp
    rw [hrw]

/-- `str.split()` of a non-empty whitespace-free string is that one word. -/
theorem splitWs_no_ws (l : List Char) (hne : l ≠ [])
    (h : ∀ c ∈ l, isSpaceChar c = false) : splitWs l = [l] := by
  unfold splitWs
  rw [splitWsAux_no_ws l [] h]
  simp only [List.reverse_nil, List.nil_append]
  rw [if_neg (by simpa using hne)]

/-- `secure_filename` fixes names made only of kept characters that do not
start or end with `.` or `_`. -/
theorem secure_fixpoint (l : List Char) (hne : l ≠ [])
    (hkeep : ∀ c ∈ l, keepChar c = true)
    (hhead : ∀ c rest, l = c :: rest → isDotUnd c = false)
    (hlast : ∀ c rest, l.reverse = c :: rest → isDotUnd c = false) :
    secure_filename l = l := by
  unfold secure_filename
  have h1 : l.map (fun c => if c.toNat == 47 then ' ' else c) = l := by
    have hcong : ∀ c ∈ l, (fun c => if c.toNat == 47 then ' ' else c) c = id c := by
      intro c hc
      simp only [id]
      rw [keepChar_not_sep c (hkeep c hc)]
      simp
    rw [List.map_congr_left hcong, List.map_id]
  rw [h1]
  show stripDotUnd (List.filter keepChar (List.intercalate ['_'] (splitWs l))) = l
  rw [splitWs_no_ws l hne (fun c hc => keepChar_not_space c (hkeep c hc))]
  have h2 : List.intercalate ['_'] [l] = l := by
    simp [List.intercalate]
  rw [h2]
  rw [List.filter_eq_self.mpr hkeep]
  unfold stripDotUnd
  have h3 : l.dropWhile isDotUnd = l := by
    cases hl : l with
    | nil => rfl
    | cons c rest =>
      rw [List.dropWhile_cons, hhead c rest hl]
      simp
  rw [h3]
  have h4 : l.reverse.dropWhile isDotUnd = l.reverse := by
    cases hl : l.reverse with
    | nil => rfl
    | cons c rest =>
      rw [List.dropWhile_cons, hlast c rest hl]
      simp
  rw [h4, List.reverse_reverse]


/-- `splitext` decomposition for a name with no leading dot: base and
extension concatenate back, and the extension is empty (name dot-free) or a
dot followed by a dot-free tail, with a non-empty base. -/
theorem splitext_spec (S b e : List Char)
    (hhead : ∀ c rest, S = c :: rest → isDot c = false)
    (h : splitext S = (b, e)) :
    b ++ e = S
    ∧ ((e = [] ∧ ∀ c ∈ S, isDot c = false)
      ∨ (∃ c t, e = c :: t ∧ isDot c = true ∧ (∀ x ∈ t, isDot x = false) ∧ b ≠ [])) := by
  unfold splitext at h
  split at h
  next heq =>
    cases h
    refine ⟨by simp, Or.inl ⟨rfl, ?_⟩⟩
    intro c hc
    have hall := List.dropWhile_eq_nil_iff.mp heq c (List.mem_reverse.mpr hc)
    simpa using hall
  next c0 b0 heq =>
    have hc0 : isDot c0 = true := by
      have hx := dropWhile_head_false _ _ _ _ heq
      simpa using hx
    have hS : S = b0.reverse ++ c0 :: (S.reverse.takeWhile (fun x => !(isDot x))).reverse := by
      have hp : S.reverse.takeWhile (fun x => !(isDot x)) ++ c0 :: b0 = S.reverse := by
        rw [← heq, List.takeWhile_append_dropWhile]
      have h2 := congrArg List.reverse hp
      rw [List.reverse_reverse] at h2
      conv_lhs => rw [← h2]
      simp
    split at h
    next hall =>
      exfalso
      cases hbr : b0.reverse with
      | nil =>
        have hbnil : b0 = [] := by simpa using hbr
        rw [hbnil] at hS
        simp only [List.reverse_nil, List.nil_append] at hS
        have := hhead c0 _ hS
        rw [this] at hc0
        exact absurd hc0 (by simp)
      | cons d br =>
        have hd : d ∈ b0 := by
          rw [← List.mem_reverse, hbr]
          exact List.mem_cons_self d br
        have hddot : isDot d = true := by
          simpa using List.all_eq_true.mp hall d hd
        rw [hbr] at hS
        have := hhead d _ (by simpa using hS)
        rw [this] at hddot
        exact absurd hddot (by simp)
    next hall =>
      cases h
      refine ⟨hS.symm, Or.inr ⟨c0, _, rfl, hc0, ?_, ?_⟩⟩
      · intro x hx
        rw [List.mem_reverse] at hx
        have := List.mem_takeWhile_imp hx
        simpa using this
      · intro hcontra
        have hbnil : b0 = [] := by simpa using hcontra
        rw [hbnil] at hall
        exact hall rfl

/-- Not dot-or-underscore implies not dot. -/
theorem isDot_false_of_isDotUnd_false (c : Char) (h : isDotUnd c = false) :
    isDot c = false := by
  simp only [isDotUnd, Bool.or_eq_false_iff] at h
  exact h.1

/-- A list splits uniquely at its first marked element. -/
theorem marker_inj (p : Char → Bool) :
    ∀ (u1 u2 v1 v2 : List Char) (c1 c2 : Char),
      (∀ x ∈ u1, p x = false) → (∀ x ∈ u2, p x = false) →
      p c1 = true → p c2 = true →
      u1 ++ c1 :: v1 = u2 ++ c2 :: v2 →
      u1 = u2 ∧ c1 = c2 ∧ v1 = v2 := by
  intro u1
  induction u1 with
  | nil =>
    intro u2 v1 v2 c1 c2 _ hu2 hc1 _ heq
    cases u2 with
    | nil =>
      simp only [List.nil_append, List.cons.injEq] at heq
      exact ⟨rfl, heq.1, heq.2⟩
    | cons a u2' =>
      exfalso
      simp only [List.nil_append, List.cons_append, List.cons.injEq] at heq
      have ha := hu2 a (List.mem_cons_self a u2')
      rw [← heq.1] at ha
      rw [ha] at hc1
      exact absurd hc1 (by simp)
  | cons a u1' ih =>
    intro u2 v1 v2 c1 c2 hu1 hu2 hc1 hc2 heq
    cases u2 with
    | nil =>
      exfalso
      simp only [List.nil_append, List.cons_append, List.cons.injEq] at heq
      have ha := hu1 a (List.mem_cons_self a u1')
      rw [heq.1] at ha
      rw [ha] at hc2
      exact absurd hc2 (by simp)
    | cons b u2' =>
      simp only [List.cons_append, List.cons.injEq] at heq
      obtain ⟨hab, heq'⟩ := heq
      have hres := ih u2' v1 v2 c1 c2 (fun x hx => hu1 x (List.mem_cons_of_mem a hx))
        (fun x hx => hu2 x (List.mem_cons_of_mem b hx)) hc1 hc2 heq'
      exact ⟨by rw [hab, hres.1], hres.2.1, hres.2.2⟩

/-- Reversal of a stored name with a non-empty extension. -/
theorem rev_stored (bs ts e : List Char) (c : Char) :
    (bs ++ '-' :: (ts ++ c :: e)).reverse
      = e.reverse ++ c :: (ts.reverse ++ '-' :: bs.reverse) := by
  simp

/-- Reversal of a stored name with an empty extension. -/
theorem rev_stored_nil (bs ts : List Char) :
    (bs ++ '-' :: ts).reverse = ts.reverse ++ '-' :: bs.reverse := by
  simp

/-- A stored name is never the original submitted name: if it were, the
original would be a `secure_filename` fixpoint, making the sanitised name 21
characters longer than itself. -/
theorem storedName_ne_original (o ts : List Char)
    (hl : ts.length = 20) (hd : ∀ c ∈ ts, isDigitChar c = true) :
    storedName o ts ≠ o := by
  intro heq
  rcases hsp : splitext (secure_filename o) with ⟨bs, es⟩
  obtain ⟨hbe, -⟩ := splitext_spec (secure_filename o) bs es
    (fun c rest hcr => isDot_false_of_isDotUnd_false c (secure_head o c rest hcr)) hsp
  have hst : storedName o ts = bs ++ '-' :: (ts ++ es) := by
    unfold storedName
    show (splitext (secure_filename o)).1 ++ '-' ::
      (ts ++ (splitext (secure_filename o)).2) = _
    rw [hsp]
  have hkeep : ∀ c ∈ bs ++ '-' :: (ts ++ es), keepChar c = true := by
    intro c hc
    rcases List.mem_append.mp hc with hc | hc
    · exact secure_mem o c (by rw [← hbe]; exact List.mem_append_left es hc)
    · rcases List.mem_cons.mp hc with hc | hc
      · subst hc
        decide
      · rcases List.mem_append.mp hc with hc | hc
        · exact (digit_keep c (hd c hc)).1
        · exact secure_mem o c (by rw [← hbe]; exact List.mem_append_right bs hc)
  have hhead : ∀ c rest, bs ++ '-' :: (ts ++ es) = c :: rest → isDotUnd c = false := by
    intro c rest hcr
    cases hbs : bs with
    | nil =>
      rw [hbs] at hcr
      simp only [List.nil_append, List.cons.injEq] at hcr
      rw [← hcr.1]
      decide
    | cons a bs' =>
      rw [hbs] at hcr
      simp only [List.cons_append, List.cons.injEq] at hcr
      have hSform : secure_filename o = a :: (bs' ++ es) := by
        rw [← hbe, hbs]
        simp
      rw [← hcr.1]
      exact secure_head o a _ hSform
  have hlast : ∀ c rest, (bs ++ '-' :: (ts ++ es)).reverse = c :: rest →
      isDotUnd c = false := by
    intro c rest hcr
    cases hes : es with
    | nil =>
      rw [hes, List.append_nil, rev_stored_nil] at hcr
      cases hts : ts.reverse with
      | nil =>
        exfalso
        have h0 : ts.reverse.length = 0 := by rw [hts]; rfl
        rw [List.length_reverse] at h0
        omega
      | cons d tr =>
        rw [hts] at hcr
        simp only [List.cons_append, List.cons.injEq] at hcr
        have hdmem : d ∈ ts := by
          rw [← List.mem_reverse, hts]
          exact List.mem_cons_self d tr
        rw [← hcr.1]
        exact (digit_keep d (hd d hdmem)).2.2
    | cons e0 es' =>
      rw [hes, rev_stored] at hcr
      have hSrev : (secure_filename o).reverse = es'.reverse ++ e0 :: bs.reverse := by
        rw [← hbe, hes]
        simp
      cases hesr : es'.reverse with
      | nil =>
        rw [hesr] at hcr hSrev
        simp only [List.nil_append, List.cons.injEq] at hcr
        rw [← hcr.1]
        exact secure_rev_head o e0 _ hSrev
      | cons d er =>
        rw [hesr] at hcr hSrev
        simp only [List.cons_append, List.cons.injEq] at hcr
        rw [← hcr.1]
        exact secure_rev_head o d _ hSrev
  have hnempty : bs ++ '-' :: (ts ++ es) ≠ [] := by simp
  have hfix := secure_fixpoint _ hnempty hkeep hhead hlast
  rw [hst] at heq
  have hSo : secure_filename o = bs ++ '-' :: (ts ++ es) := by
    calc secure_filename o = secure_filename (bs ++ '-' :: (ts ++ es)) := by rw [heq]
    _ = bs ++ '-' :: (ts ++ es) := hfix
  have hlen2 : bs.length + es.length = (secure_filename o).length := by
    rw [← hbe]
    simp
  rw [hSo] at hlen2
  simp only [List.length_append, List.length_cons] at hlen2
  omega

/-- Stored names from uploads with distinct 20-digit timestamp strings never
collide, whatever the original names: the timestamp sits between the `'-'`
and the dot-free extension, so equal stored names force equal timestamps. -/
theorem storedName_inj_timestamp (o1 o2 ts1 ts2 : List Char)
    (hl1 : ts1.length = 20) (hl2 : ts2.length = 20)
    (hd1 : ∀ c ∈ ts1, isDigitChar c = true) (hd2 : ∀ c ∈ ts2, isDigitChar c = true)
    (hne : ts1 ≠ ts2) : storedName o1 ts1 ≠ storedName o2 ts2 := by
  intro heq
  rcases hsp1 : splitext (secure_filename o1) with ⟨bs1, es1⟩
  rcases hsp2 : splitext (secure_filename o2) with ⟨bs2, es2⟩
  obtain ⟨hbe1, hcase1⟩ := splitext_spec (secure_filename o1) bs1 es1
    (fun c rest hcr => isDot_false_of_isDotUnd_false c (secure_head o1 c rest hcr)) hsp1
  obtain ⟨hbe2, hcase2⟩ := splitext_spec (secure_filename o2) bs2 es2
    (fun c rest hcr => isDot_false_of_isDotUnd_false c (secure_head o2 c rest hcr)) hsp2
  have hst1 : storedName o1 ts1 = bs1 ++ '-' :: (ts1 ++ es1) := by
    unfold storedName
    show (splitext (secure_filename o1)).1 ++ '-' ::
      (ts1 ++ (splitext (secure_filename o1)).2) = _
    rw [hsp1]
  have hst2 : storedName o2 ts2 = bs2 ++ '-' :: (ts2 ++ es2) := by
    unfold storedName
    show (splitext (secure_filename o2)).1 ++ '-' ::
      (ts2 ++ (splitext (secure_filename o2)).2) = _
    rw [hsp2]
  rw [hst1, hst2] at heq
  have hrev := congrArg List.reverse heq
  rcases hcase1 with ⟨hes1, hdotfree1⟩ | ⟨c1, t1, hes1, hc1, ht1, -⟩
  · rcases hcase2 with ⟨hes2, hdotfree2⟩ | ⟨c2, t2, hes2, hc2, ht2, -⟩
    · rw [hes1, hes2, List.append_nil, List.append_nil, rev_stored_nil,
        rev_stored_nil] at hrev
      obtain ⟨hts, -⟩ := List.append_inj hrev (by simp [hl1, hl2])
      apply hne
      have hts' := congrArg List.reverse hts
      simpa using hts'
    · have hc2mem : c2 ∈ bs1 ++ '-' :: (ts1 ++ es1) := by
        rw [heq, hes2]
        simp
      rcases List.mem_append.mp hc2mem with hm | hm
      · have hmem : c2 ∈ secure_filename o1 := by
          rw [← hbe1]
          exact List.mem_append_left es1 hm
        have hfalse := hdotfree1 c2 hmem
        rw [hfalse] at hc2
        exact absurd hc2 (by simp)
      · rcases List.mem_cons.mp hm with hm | hm
        · rw [hm] at hc2
          exact absurd hc2 (by decide)
        · rcases List.mem_append.mp hm with hm | hm
          · have := (digit_keep c2 (hd1 c2 hm)).2.1
            rw [this] at hc2
            exact absurd hc2 (by simp)
          · rw [hes1] at hm
            simp at hm
  · rcases hcase2 with ⟨hes2, hdotfree2⟩ | ⟨c2, t2, hes2, hc2, ht2, -⟩
    · have hc1mem : c1 ∈ bs2 ++ '-' :: (ts2 ++ es2) := by
        rw [← heq, hes1]
        simp
      rcases List.mem_append.mp hc1mem with hm | hm
      · have hmem : c1 ∈ secure_filename o2 := by
          rw [← hbe2]
          exact List.mem_append_left es2 hm
        have hfalse := hdotfree2 c1 hmem
        rw [hfalse] at hc1
        exact absurd hc1 (by simp)
      · rcases List.mem_cons.mp hm with hm | hm
        · rw [hm] at hc1
          exact absurd hc1 (by decide)
        · rcases List.mem_append.mp hm with hm | hm
          · have := (digit_keep c1 (hd2 c1 hm)).2.1
            rw [this] at hc1
            exact absurd hc1 (by simp)
          · rw [hes2] at hm
            simp at hm
    · rw [hes1, hes2, rev_stored, rev_stored] at hrev
      have hti1 : ∀ x ∈ t1.reverse, isDot x = false :=
        fun x hx => ht1 x (List.mem_reverse.mp hx)
      have hti2 : ∀ x ∈ t2.reverse, isDot x = false :=
        fun x hx => ht2 x (List.mem_reverse.mp hx)
      obtain ⟨-, -, htail⟩ := marker_inj isDot _ _ _ _ _ _ hti1 hti2 hc1 hc2 hrev
      obtain ⟨hts, -⟩ := List.append_inj htail (by simp [hl1, hl2])
      apply hne
      have hts' := congrArg List.reverse hts
      simpa using hts'

/-- C8 (counterexample): the claim fails as stated on two points.  The
accepted upload `"._.png"` sanitises to `"png"`, so its stored name
`png-<timestamp>` contains no dot at all and lacks the claimed
`<sanitized-base>-<timestamp>.<ext>` shape; and two upload events that fall
in the same strftime microsecond (identical 20-digit timestamp strings) of
the same original name produce identical stored names, so "any two uploads
never collide" does not hold unconditionally. -/
theorem storedName_claim_counterexample :
    (allowed_file "._.png".data = true
      ∧ storedName "._.png".data "20250101000000000000".data
          = "png-20250101000000000000".data
      ∧ (storedName "._.png".data "20250101000000000000".data).all
          (fun c => !(isDot c)) = true)
    ∧ (allowed_file "logo.png".data = true
      ∧ storedName "logo.png".data "20250101000000000000".data
          = storedName "logo.png".data "20250101000000000000".data) :=
  ⟨⟨by decide, by decide, by decide⟩, ⟨by decide, rfl⟩⟩

/-- C8 (amended): for accepted uploads the stored name is the sanitised
base, a dash, the 20-digit timestamp and the sanitised name's (possibly
empty) extension; it never equals the original submitted filename; and any
two uploads with distinct timestamp strings (distinct microseconds) receive
distinct stored names, even for repeat uploads of the identical original
name. -/
theorem storedName_fresh_and_collision_free
    (o1 o2 ts1 ts2 : List Char)
    (ha1 : allowed_file o1 = true) (ha2 : allowed_file o2 = true)
    (hl1 : ts1.length = 20) (hl2 : ts2.length = 20)
    (hd1 : ∀ c ∈ ts1, isDigitChar c = true) (hd2 : ∀ c ∈ ts2, isDigitChar c = true) :
    (∃ base ext, secure_filename o1 = base ++ ext
      ∧ storedName o1 ts1 = base ++ '-' :: (ts1 ++ ext))
    ∧ storedName o1 ts1 ≠ o1
    ∧ (ts1 ≠ ts2 → storedName o1 ts1 ≠ storedName o2 ts2) := by
  refine ⟨?_, storedName_ne_original o1 ts1 hl1 hd1,
    fun hne => storedName_inj_timestamp o1 o2 ts1 ts2 hl1 hl2 hd1 hd2 hne⟩
  rcases hsp : splitext (secure_filename o1) with ⟨bs, es⟩
  obtain ⟨hbe, -⟩ := splitext_spec (secure_filename o1) bs es
    (fun c rest hcr => isDot_false_of_isDotUnd_false c (secure_head o1 c rest hcr)) hsp
  refine ⟨bs, es, hbe.symm, ?_⟩
  unfold storedName
  show (splitext (secure_filename o1)).1 ++ '-' ::
    (ts1 ++ (splitext (secure_filename o1)).2) = _
  rw [hsp]

/-- C8 witness: two uploads of `logo.png` at different microseconds get
distinct stored names, neither equal to the original. -/
theorem storedName_fresh_witness :
    storedName "logo.png".data "20250101000000000001".data ≠ "logo.png".data
    ∧ storedName "logo.png".data "20250101000000000001".data
        ≠ storedName "logo.png".data "20250101000000000002".data :=
  ⟨(storedName_fresh_and_collision_free "logo.png".data "logo.png".data
      "20250101000000000001".data "20250101000000000002".data
      (by decide) (by decide) (by decide) (by decide) (by decide) (by decide)).2.1,
   (storedName_fresh_and_collision_free "logo.png".data "logo.png".data
      "20250101000000000001".data "20250101000000000002".data
      (by decide) (by decide) (by decide) (by decide) (by decide) (by decide)).2.2
      (by decide)⟩
